import Mathlib

/-!
Verification development for the graph simulation service of this
repository (`src/services/graph_service.rs`).  The Rust code is shallowly
embedded: pure functions become Lean functions, stateful code becomes
explicit state passing, `f32` arithmetic is modelled by rationals (with the
square root passed as an explicit function parameter) or by real numbers
where transcendental functions are involved, and wall-clock time is
modelled in integer milliseconds.
-/

namespace GraphService

/-! ### Constants of `graph_service.rs` -/

def NODE_POSITION_CACHE_TTL_MS : Nat := 50

def SHUTDOWN_TIMEOUT_MS : Nat := 5000

def UPDATE_RATE_LIMIT_MS : Nat := 16

def MAX_GPU_CALCULATION_RETRIES : Nat := 3

def GPU_RETRY_DELAY_MS : Nat := 500

/-! ### Retry policy (`calculate_layout_with_retry`, lines 673-721)

The GPU path `calculate_layout` and the CPU path `calculate_layout_cpu`
are injected as oracles: `gpu k` is the outcome of the GPU attempt with
index `k`, `cpu` the outcome of the CPU fallback.  The function returns
the ordered trace of observable events (GPU attempts, sleeps with their
delay in milliseconds, the CPU fallback run) together with the returned
`Result`. -/

/-- An observable event of `calculate_layout_with_retry`: one GPU attempt
(`calculate_layout`), one `tokio::time::sleep`, or one run of the CPU
fallback `calculate_layout_cpu`. -/
inductive RetryEv where
  | gpuAttempt (k : Nat)
  | sleepMs (ms : Nat)
  | cpuRun
deriving DecidableEq, Repr

/-- The message built by the `unwrap_or_else` closure at lines 717-718 (it
is only reached when `last_error` is `None`). -/
def retryExhaustedMsg : String := "All 3 GPU retry attempts failed and CPU fallback failed"

/-- The `for attempt in 0..MAX_GPU_CALCULATION_RETRIES` loop of
`calculate_layout_with_retry` (lines 682-702), continued by the CPU
fallback (lines 709-720) once the attempts are exhausted.  `remaining` is
the number of loop iterations still to run, `attempt` the index of the
next attempt, and the third argument is `last_error`. -/
def retryLoop (gpu : Nat → Except String Unit) (cpu : Except String Unit) :
    Nat → Nat → Option String → List RetryEv × Except String Unit
  | 0, _, lastErr =>
    match cpu with
    | Except.ok _ => ([RetryEv.cpuRun], Except.ok ())
    | Except.error _ => ([RetryEv.cpuRun], Except.error (lastErr.getD retryExhaustedMsg))
  | Nat.succ r, attempt, _lastErr =>
    match gpu attempt with
    | Except.ok _ => ([RetryEv.gpuAttempt attempt], Except.ok ())
    | Except.error e =>
      let delay := GPU_RETRY_DELAY_MS * 2 ^ attempt
      let rest := retryLoop gpu cpu r (attempt + 1) (some e)
      if attempt + 1 < MAX_GPU_CALCULATION_RETRIES then
        (RetryEv.gpuAttempt attempt :: RetryEv.sleepMs delay :: rest.1, rest.2)
      else
        (RetryEv.gpuAttempt attempt :: rest.1, rest.2)

/-- `GraphService::calculate_layout_with_retry` (lines 673-721): run up to
`MAX_GPU_CALCULATION_RETRIES` GPU attempts starting at attempt 0 with
`last_error = None`, then fall back to the CPU path. -/
def calculate_layout_with_retry (gpu : Nat → Except String Unit)
    (cpu : Except String Unit) : List RetryEv × Except String Unit :=
  retryLoop gpu cpu MAX_GPU_CALCULATION_RETRIES 0 none

/-- The event trace of the first `k` failing GPU attempts, each followed by
its backoff sleep of `GPU_RETRY_DELAY_MS * 2 ^ attempt` milliseconds. -/
def failPrefix : Nat → List RetryEv
  | 0 => []
  | Nat.succ k => failPrefix k ++
      [RetryEv.gpuAttempt k, RetryEv.sleepMs (GPU_RETRY_DELAY_MS * 2 ^ k)]

/-! ### Data model (`models/node.rs`, `models/edge.rs`, `models/graph.rs`)

`f32` coordinates, masses and weights are modelled by rationals. -/

@[ext] structure Vec3 where
  x : ℚ
  y : ℚ
  z : ℚ
deriving DecidableEq, Repr

instance : Add Vec3 := ⟨fun a b => ⟨a.x + b.x, a.y + b.y, a.z + b.z⟩⟩

instance : Zero Vec3 := ⟨⟨0, 0, 0⟩⟩

instance : AddCommMonoid Vec3 where
  add_assoc a b c := by
    refine Vec3.ext ?_ ?_ ?_ <;> exact add_assoc _ _ _
  add_comm a b := by
    refine Vec3.ext ?_ ?_ ?_ <;> exact add_comm _ _
  zero_add a := by
    refine Vec3.ext ?_ ?_ ?_ <;> exact zero_add _
  add_zero a := by
    refine Vec3.ext ?_ ?_ ?_ <;> exact add_zero _
  nsmul := nsmulRec

/-- Scalar multiplication on force vectors (used only by the
specification-side force description). -/
def Vec3.smul (c : ℚ) (v : Vec3) : Vec3 := ⟨c * v.x, c * v.y, c * v.z⟩

/-- The per-node binary record (`BinaryNodeData`): position, velocity, mass
and the bit flags. -/
@[ext] structure BinaryNodeData where
  position : Vec3
  velocity : Vec3
  mass : ℚ
  flags : Nat
deriving DecidableEq, Repr

/-- A graph node: numeric id, stable metadata key, display label, free-form
string metadata and the binary record. -/
@[ext] structure Node where
  id : Nat
  metadata_id : String
  label : String
  metadata : List (String × String)
  data : BinaryNodeData
deriving DecidableEq, Repr

structure Edge where
  source : Nat
  target : Nat
  weight : ℚ
deriving DecidableEq, Repr

structure GraphData where
  nodes : List Node
  edges : List Edge
deriving DecidableEq, Repr

/-- The id-indexed parallel node map (`node_map: HashMap<u32, Node>`). -/
abbrev NodeMap : Type := Nat → Option Node

/-- `SimulationParams` (`models/simulation_params.rs`), the numeric fields
as rationals; `phase` and `mode` carry no physics in the CPU path and are
omitted. -/
structure SimulationParams where
  iterations : Nat
  spring_strength : ℚ
  repulsion : ℚ
  damping : ℚ
  max_repulsion_distance : ℚ
  viewport_bounds : ℚ
  mass_scale : ℚ
  boundary_damping : ℚ
  enable_bounds : Bool
  time_step : ℚ
deriving DecidableEq, Repr

/-! ### CPU physics (`calculate_layout_cpu`, lines 815-932)

`f32` arithmetic is modelled over ℚ; the square root is passed in as an
explicit function `S` (both the code and the specification apply it to the
same squared distance, so nothing about `S` is assumed).  Forces are a
function from node index to accumulated force vector, the translation of
the `forces` vector of the Rust code. -/

/-- The node pairs `(i, j)` with `i < j < n` visited by the nested
repulsion loops (lines 832-833), in loop order. -/
def pairList (n : Nat) : List (Nat × Nat) :=
  (List.range n).flatMap
    (fun i => ((List.range n).filter (fun j => i < j)).map (fun j => (i, j)))

/-- Placeholder node for indexing; never reached on the in-range indices
the loops produce. -/
def dummyNode : Node := ⟨0, "", "", [], ⟨⟨0, 0, 0⟩, ⟨0, 0, 0⟩, 0, 0⟩⟩

/-- `graph.nodes[i]`. -/
def nodeAt (ns : List Node) (i : Nat) : Node := ns.getD i dummyNode

/-- The separation vector `(dx, dy, dz)` from `node_i` to `node_j`
(lines 838-840 and 883-885). -/
def delta (node_i node_j : Node) : Vec3 :=
  ⟨node_j.data.position.x - node_i.data.position.x,
   node_j.data.position.y - node_i.data.position.y,
   node_j.data.position.z - node_i.data.position.z⟩

/-- `distance_squared = dx*dx + dy*dy + dz*dz` (lines 841 and 886). -/
def quadrance (v : Vec3) : ℚ := v.x * v.x + v.y * v.y + v.z * v.z

/-- The node mass used by the repulsion formula (lines 849-850):
`(data.mass / 255) * 10 * mass_scale`. -/
def rustMass (p : SimulationParams) (n : Node) : ℚ :=
  n.data.mass / 255 * 10 * p.mass_scale

/-- The body of the repulsion pair loop (lines 834-869): skip coincident
pairs (squared distance below 0.0001) and pairs farther apart than
`max_repulsion_distance`; otherwise apply equal and opposite forces of
magnitude `repulsion * mass_i * mass_j / distance²` along the normalized
separation, with `mass = (raw mass / 255) * 10 * mass_scale`. -/
def repulsionStep (S : ℚ → ℚ) (p : SimulationParams) (ns : List Node)
    (F : Nat → Vec3) (ij : Nat × Nat) : Nat → Vec3 :=
  let node_i := nodeAt ns ij.1
  let node_j := nodeAt ns ij.2
  let d := delta node_i node_j
  let distance_squared := quadrance d
  if distance_squared < 1 / 10000 then F
  else
    let distance := S distance_squared
    if p.max_repulsion_distance < distance then F
    else
      let repulsion_factor :=
        p.repulsion * rustMass p node_i * rustMass p node_j / distance_squared
      let fx := d.x / distance * repulsion_factor
      let fy := d.y / distance * repulsion_factor
      let fz := d.z / distance * repulsion_factor
      fun k =>
        if k = ij.1 then ⟨(F ij.1).x - fx, (F ij.1).y - fy, (F ij.1).z - fz⟩
        else if k = ij.2 then ⟨(F ij.2).x + fx, (F ij.2).y + fy, (F ij.2).z + fz⟩
        else F k

/-- The body of the spring loop over edges (lines 874-911): resolve both
endpoints to the first node index carrying the id (skip the edge if either
is missing), skip coincident endpoints, and apply equal and opposite
forces of magnitude `spring_strength * weight * distance` pulling the
endpoints together. -/
def springStep (S : ℚ → ℚ) (p : SimulationParams) (ns : List Node)
    (F : Nat → Vec3) (e : Edge) : Nat → Vec3 :=
  match ns.findIdx? (fun n => n.id == e.source),
      ns.findIdx? (fun n => n.id == e.target) with
  | some i, some j =>
    let node_i := nodeAt ns i
    let node_j := nodeAt ns j
    let d := delta node_i node_j
    let distance_squared := quadrance d
    if distance_squared < 1 / 10000 then F
    else
      let distance := S distance_squared
      let spring_factor := p.spring_strength * e.weight * distance
      let fx := d.x / distance * spring_factor
      let fy := d.y / distance * spring_factor
      let fz := d.z / distance * spring_factor
      fun k =>
        if k = i then ⟨(F i).x + fx, (F i).y + fy, (F i).z + fz⟩
        else if k = j then ⟨(F j).x - fx, (F j).y - fy, (F j).z - fz⟩
        else F k
  | _, _ => F

/-- The per-node integration step (lines 914-923): semi-implicit Euler —
the velocity is damped and accelerated first, then the position moves with
the *new* velocity. -/
def integrateNode (p : SimulationParams) (F : Nat → Vec3) (i : Nat)
    (n : Node) : Node :=
  let vx := n.data.velocity.x * p.damping + (F i).x * p.time_step
  let vy := n.data.velocity.y * p.damping + (F i).y * p.time_step
  let vz := n.data.velocity.z * p.damping + (F i).z * p.time_step
  let px := n.data.position.x + vx * p.time_step
  let py := n.data.position.y + vy * p.time_step
  let pz := n.data.position.z + vz * p.time_step
  { n with data := { n.data with velocity := ⟨vx, vy, vz⟩,
                                 position := ⟨px, py, pz⟩ } }

/-- The node-map mirror (lines 926-928): when the map holds the node's id,
overwrite that entry's data with the updated node's data. -/
def mirrorNode (m : NodeMap) (n : Node) : NodeMap :=
  fun i => if i = n.id then (m n.id).map (fun old => { old with data := n.data })
           else m i

/-- One iteration of the final update loop (lines 914-929): integrate the
node at this index and mirror it into the node map. -/
def integratePass (p : SimulationParams) (F : Nat → Vec3)
    (acc : List Node × NodeMap) (inode : Nat × Node) : List Node × NodeMap :=
  let nd := integrateNode p F inode.1 inode.2
  (acc.1 ++ [nd], mirrorNode acc.2 nd)

/-- `GraphService::calculate_layout_cpu` (lines 815-932): early return on
an empty graph, otherwise accumulate repulsion over all pairs and spring
forces over all edges into a force table initialized to zero, then update
every node and mirror it into the node map. -/
def calculate_layout_cpu (S : ℚ → ℚ) (g : GraphData) (m : NodeMap)
    (p : SimulationParams) : GraphData × NodeMap :=
  if g.nodes.length = 0 then (g, m)
  else
    let F0 : Nat → Vec3 := fun _ => 0
    let F1 := (pairList g.nodes.length).foldl (repulsionStep S p g.nodes) F0
    let F2 := g.edges.foldl (springStep S p g.nodes) F1
    let r := (g.nodes.enum).foldl (integratePass p F2) ([], m)
    ({ g with nodes := r.1 }, r.2)

/-! Specification-side description of the same computation, following the
words of the specification: per-pair and per-edge force *contributions* of
the form magnitude · unit vector, summed per node, then semi-implicit Euler
written with scalar multiplication. -/

/-- The repulsive contribution of the unordered pair `ij` to the force on
node `k`: zero if the squared distance is below the 0.0001 epsilon or the
distance exceeds `max_repulsion_distance`; otherwise magnitude
`repulsion * mass_i * mass_j / distance²` along the unit separation
vector, pushing the pair apart equally and oppositely. -/
def repContrib (S : ℚ → ℚ) (p : SimulationParams) (ns : List Node)
    (ij : Nat × Nat) (k : Nat) : Vec3 :=
  let node_i := nodeAt ns ij.1
  let node_j := nodeAt ns ij.2
  let d := delta node_i node_j
  let distance_squared := quadrance d
  let distance := S distance_squared
  if distance_squared < 1 / 10000 ∨ p.max_repulsion_distance < distance then 0
  else
    let mag :=
      p.repulsion * rustMass p node_i * rustMass p node_j / distance_squared
    let u : Vec3 := ⟨d.x / distance, d.y / distance, d.z / distance⟩
    if k = ij.1 then Vec3.smul (-mag) u
    else if k = ij.2 then Vec3.smul mag u
    else 0

/-- The attractive contribution of edge `e` to the force on node `k`: zero
unless both endpoints resolve to existing nodes and the distance is above
the epsilon; otherwise magnitude `spring_strength * weight * distance`
along the unit separation vector, pulling the endpoints together. -/
def attrContrib (S : ℚ → ℚ) (p : SimulationParams) (ns : List Node)
    (e : Edge) (k : Nat) : Vec3 :=
  match ns.findIdx? (fun n => n.id == e.source),
      ns.findIdx? (fun n => n.id == e.target) with
  | some i, some j =>
    let node_i := nodeAt ns i
    let node_j := nodeAt ns j
    let d := delta node_i node_j
    let distance_squared := quadrance d
    if distance_squared < 1 / 10000 then 0
    else
      let distance := S distance_squared
      let mag := p.spring_strength * e.weight * distance
      let u : Vec3 := ⟨d.x / distance, d.y / distance, d.z / distance⟩
      if k = i then Vec3.smul mag u
      else if k = j then Vec3.smul (-mag) u
      else 0
  | _, _ => 0

/-- The total specified force on node `k`: the sum of the repulsive
contributions over every unordered pair plus the sum of the attractive
contributions over every edge. -/
def specForce (S : ℚ → ℚ) (g : GraphData) (p : SimulationParams)
    (k : Nat) : Vec3 :=
  ((pairList g.nodes.length).map (fun ij => repContrib S p g.nodes ij k)).sum +
    (g.edges.map (fun e => attrContrib S p g.nodes e k)).sum

/-- Semi-implicit Euler as the specification words it:
`velocity' = velocity * damping + force * time_step`, then
`position' = position + velocity' * time_step`. -/
def specIntegrate (p : SimulationParams) (F : Nat → Vec3) (i : Nat)
    (n : Node) : Node :=
  let v2 := Vec3.smul p.damping n.data.velocity + Vec3.smul p.time_step (F i)
  let pos2 := n.data.position + Vec3.smul p.time_step v2
  { n with data := { n.data with velocity := v2, position := pos2 } }

/-- The whole CPU tick as the specification describes it. -/
def cpuLayoutSpec (S : ℚ → ℚ) (g : GraphData) (m : NodeMap)
    (p : SimulationParams) : GraphData × NodeMap :=
  if g.nodes.length = 0 then (g, m)
  else
    let F := specForce S g p
    let nodes2 := g.nodes.enum.map (fun inode => specIntegrate p F inode.1 inode.2)
    ({ g with nodes := nodes2 }, nodes2.foldl mirrorNode m)

/-! ### Simulation-loop exit cleanup (the scopeguard, lines 188-198) -/

/-- Why the spawned simulation loop exited: the shutdown flag was observed
(the `break` at line 204) or the task ended abnormally (any other way out
of the `loop`); the scopeguard's closure runs in either case. -/
inductive LoopExitReason where
  | shutdownObserved
  | abnormal
deriving DecidableEq, Repr

/-- The body of the `scopeguard::guard` closure (lines 189-198), acting on
the pair (global `SIMULATION_LOOP_RUNNING`, this instance's
`shutdown_complete`): `compare_exchange(true, false)` resets the running
flag, and only when that exchange succeeds is `true` stored into
`shutdown_complete`; when the flag was already `false` the closure only
logs an error. -/
def loopCleanup (running complete : Bool) : Bool × Bool :=
  if running = true then (false, true) else (running, complete)

/-- The spawned simulation task's effect on the two flags at exit: the
scopeguard runs its cleanup exactly once, whatever the exit reason. -/
def spawnedLoopExit (_reason : LoopExitReason) (running complete : Bool) :
    Bool × Bool :=
  loopCleanup running complete

/-! ### Position cache (`get_node_positions`, lines 1001-1045)

The cache is `Option (snapshot, timestamp)`; timestamps are in
milliseconds and `Instant::duration_since` is truncated subtraction. The
function returns the nodes it hands back and the cache state it leaves
behind. -/

/-- `GraphService::get_node_positions`: on a cache hit younger than the TTL
return the cached snapshot without reading the primary graph store;
otherwise read the live node list and, when caching is enabled, repopulate
the cache with the fresh timestamp. -/
def get_node_positions (cache_enabled : Bool) (graphNodes : List Node)
    (cache : Option (List Node × Nat)) (now : Nat) :
    List Node × Option (List Node × Nat) :=
  match cache_enabled, cache with
  | true, some (ns, t) =>
    if now - t < NODE_POSITION_CACHE_TTL_MS then (ns, some (ns, t))
    else (graphNodes, some (graphNodes, now))
  | true, none => (graphNodes, some (graphNodes, now))
  | false, _ => (graphNodes, cache)

/-- The unconditional cache invalidation performed at the end of every
physics tick, after the graph and node-map locks are dropped (lines
243-247). -/
def tick_invalidate_cache (_cache : Option (List Node × Nat)) :
    Option (List Node × Nat) := none

/-- `GraphService::clear_position_cache` (lines 996-999). -/
def clear_position_cache (_cache : Option (List Node × Nat)) :
    Option (List Node × Nat) := none

/-! ### Rate limiter (`should_rate_limit`, lines 256-264, and
`update_node_positions`, lines 1060-1103) -/

/-- `GraphService::should_rate_limit`: returns the rate-limit verdict and
the new `last_update` timestamp (advanced to `now` only on acceptance). -/
def should_rate_limit (last now : Nat) : Bool × Nat :=
  if now - last < UPDATE_RATE_LIMIT_MS then (true, last) else (false, now)

/-- The conflict resolution applied to an accepted update whose node exists
(lines 1077-1087): take the update's position and velocity but preserve the
existing node's mass, flags and metadata map. -/
def applyNodeUpdate (existing upd : Node) : Node :=
  { upd with
      data := { upd.data with
                  mass := existing.data.mass,
                  flags := existing.data.flags },
      metadata := existing.metadata }

/-- The per-update batch loop of `update_node_positions` (lines 1069-1090).
Each submitted update is a triple (its `Instant::now()` in ms, node id,
update node); the loop threads the shared `last_update` timestamp and the
id-indexed node map. -/
def processUpdates (last : Nat) (m : NodeMap) :
    List (Nat × Nat × Node) → Nat × NodeMap
  | [] => (last, m)
  | (now, node_id, upd) :: rest =>
    let rl := should_rate_limit last now
    if rl.1 = true then processUpdates rl.2 m rest
    else
      match m node_id with
      | none => processUpdates rl.2 m rest
      | some existing =>
        processUpdates rl.2
          (fun i => if i = node_id then some (applyNodeUpdate existing upd) else m i)
          rest

/-- The final synchronisation of `graph.nodes` with the node map (lines
1092-1097). -/
def syncGraphNodes (g : List Node) (m : NodeMap) : List Node :=
  g.map (fun n =>
    match m n.id with
    | some mapNode => { n with data := mapNode.data }
    | none => n)

/-- `GraphService::update_node_positions` without the final broadcast:
returns the new `last_update` timestamp, the new node map and the
synchronised node list. -/
def update_node_positions (last : Nat) (m : NodeMap) (g : List Node)
    (updates : List (Nat × Nat × Node)) : Nat × NodeMap × List Node :=
  let r := processUpdates last m updates
  (r.1, r.2, syncGraphNodes g r.2)

/-- A concrete node record used by witnesses and counterexamples. -/
def sampleNode (id : Nat) (q : ℚ) : Node :=
  ⟨id, "n", "n", [], ⟨⟨q, 0, 0⟩, ⟨0, 0, 0⟩, 1, 1⟩⟩

/-! ### Shutdown protocol (`shutdown`, lines 316-358)

The lifecycle state is the globally active simulation id (the content of
`SIMULATION_MUTEX`) and the global `SIMULATION_LOOP_RUNNING` flag; the
instance owns its `shutdown_requested` and `shutdown_complete` flags.  The
wait loop polls every 50 ms, `SHUTDOWN_TIMEOUT_MS / 50` times; `env k` is
the pair (`SIMULATION_LOOP_RUNNING`, `shutdown_complete`) the poll with
index `k` observes. -/

inductive ShutdownOutcome where
  | refused
  | stopped (attempt : Nat)
  | timedOut
deriving DecidableEq, Repr

/-- The wait loop of `shutdown` (lines 337-357): at each attempt, first
check `!SIMULATION_LOOP_RUNNING` and then `shutdown_complete`; return
success when both hold, otherwise sleep 50 ms and continue; falling off the
loop is the (non-fatal, logged) timeout. -/
def shutdownPoll (env : Nat → Bool × Bool) : Nat → Nat → ShutdownOutcome
  | _, 0 => ShutdownOutcome.timedOut
  | k, Nat.succ r =>
    if (env k).1 = false ∧ (env k).2 = true then ShutdownOutcome.stopped k
    else shutdownPoll env (k + 1) r

/-- `GraphService::shutdown`: compare this instance's id with the globally
active one; on mismatch return at once (logged only); on match set
`shutdown_requested`, reset `shutdown_complete` and poll.  Returns the
instance's `shutdown_requested` flag, its stored `shutdown_complete` flag
as written before the wait, the global running flag (never written by
`shutdown`), and the outcome. -/
def shutdown (selfId activeId : String) (requested complete running : Bool)
    (env : Nat → Bool × Bool) : Bool × Bool × Bool × ShutdownOutcome :=
  if activeId ≠ selfId then
    (requested, complete, running, ShutdownOutcome.refused)
  else
    (true, false, running, shutdownPoll env 0 (SHUTDOWN_TIMEOUT_MS / 50))

/-! ### Graph builder (`build_graph_from_metadata`, lines 468-625)

The metadata store is an association list keyed by file name.  Node
construction (pass 1) calls `Node::new_with_id`, which lives in
`models/node.rs` outside this repository's files; it is abstracted as a
function producing the node list, and the claims below quantify over it.
The timestamp fields of `Metadata` are irrelevant to every claim and are
omitted. -/

structure Metadata where
  file_name : String
  file_size : Nat
  node_size : ℚ
  hyperlink_count : Nat
  sha1 : String
  node_id : String
  perplexity_link : String
  topic_counts : List (String × Nat)
deriving DecidableEq, Repr

abbrev MetadataStore : Type := List (String × Metadata)

/-- Whether a character sequence ends with the pattern ".md". -/
def strEndsWithMd (cs : List Char) : Bool :=
  match cs.reverse with
  | 'd' :: 'm' :: '.' :: _ => true
  | _ => false

/-- Drop the final three characters (the length of ".md"). -/
def dropRight3 (cs : List Char) : List Char := (cs.reverse.drop 3).reverse

/-- Fuel-bounded core of `trim_end_matches(".md")` on the character list;
fuel `length` suffices because every strip removes three characters. -/
def stripMdAux : Nat → List Char → List Char
  | 0, cs => cs
  | Nat.succ n, cs =>
    if strEndsWithMd cs then stripMdAux n (dropRight3 cs) else cs

/-- `file_name.trim_end_matches(".md")`: remove every trailing ".md". -/
def stripMd (s : String) : String := ⟨stripMdAux s.data.length s.data⟩

/-- `graph.nodes.iter().find(|n| n.metadata_id == name)` followed by `.id`
(lines 573-587): resolve a metadata key to the numeric id of the first
matching node. -/
def resolveNodeId (ns : List Node) (name : String) : Option Nat :=
  (ns.find? (fun n => n.metadata_id == name)).map (fun n => n.id)

/-- The canonical edge key (lines 593-597): lower id first. -/
def canonKey (a b : Nat) : Nat × Nat := if a < b then (a, b) else (b, a)

/-- `edge_map.entry(key).and_modify(|w| *w += c).or_insert(c)` (lines
599-601) on an association list: add to the existing weight or append a
fresh entry. -/
def bumpEdge : List ((Nat × Nat) × ℚ) → (Nat × Nat) → ℚ → List ((Nat × Nat) × ℚ)
  | [], key, w => [(key, w)]
  | (k, v) :: rest, key, w =>
    if k = key then (k, v + w) :: rest else (k, v) :: bumpEdge rest key w

/-- The body of the inner topic-count loop (lines 580-603): resolve the
target endpoint (skip silently when unresolved), skip self-referencing
pairs, canonicalize the key and accumulate the count. -/
def edgeStep (ns : List Node) (sid : Nat) (em : List ((Nat × Nat) × ℚ))
    (tc : String × Nat) : List ((Nat × Nat) × ℚ) :=
  match resolveNodeId ns (stripMd tc.1) with
  | none => em
  | some tid =>
    if sid ≠ tid then bumpEdge em (canonKey sid tid) (tc.2 : ℚ) else em

/-- The body of the outer loop over the store (lines 570-604): resolve the
source endpoint (skip the whole record silently when unresolved) and fold
its topic counts. -/
def entryStep (ns : List Node) (em : List ((Nat × Nat) × ℚ))
    (entry : String × Metadata) : List ((Nat × Nat) × ℚ) :=
  match resolveNodeId ns (stripMd entry.1) with
  | none => em
  | some sid => entry.2.topic_counts.foldl (edgeStep ns sid) em

/-- The second pass of `build_graph_from_metadata` (lines 569-604): the
keyed aggregation map after both loops, starting from the empty map. -/
def buildEdgeMap (ns : List Node) (store : MetadataStore) :
    List ((Nat × Nat) × ℚ) :=
  store.foldl (entryStep ns) []

/-- `graph.edges = edge_map.into_iter().map(Edge::new).collect()` (lines
613-617). -/
def edgesOfMap (em : List ((Nat × Nat) × ℚ)) : List Edge :=
  em.map (fun e => ⟨e.1.1, e.1.2, e.2⟩)

/-- Specification-side description of the same pass: the individual
co-occurrence contributions of one record's topic counts, given the
resolved source id — one contribution per resolvable, non-self topic pair,
already canonicalized. -/
def topicContribs (ns : List Node) (sid : Nat) :
    List (String × Nat) → List ((Nat × Nat) × ℚ)
  | [] => []
  | tc :: rest =>
    match resolveNodeId ns (stripMd tc.1) with
    | none => topicContribs ns sid rest
    | some tid =>
      if sid ≠ tid then (canonKey sid tid, (tc.2 : ℚ)) :: topicContribs ns sid rest
      else topicContribs ns sid rest

/-- The contributions of one metadata record: none when its own key does
not resolve. -/
def entryContribs (ns : List Node) (entry : String × Metadata) :
    List ((Nat × Nat) × ℚ) :=
  match resolveNodeId ns (stripMd entry.1) with
  | none => []
  | some sid => topicContribs ns sid entry.2.topic_counts

/-- All contributions of the store, in order. -/
def edgeContribs (ns : List Node) (store : MetadataStore) :
    List ((Nat × Nat) × ℚ) :=
  store.foldr (fun entry acc => entryContribs ns entry ++ acc) []

/-- Association-list lookup on the edge map. -/
def lookupA : List ((Nat × Nat) × ℚ) → (Nat × Nat) → Option ℚ
  | [], _ => none
  | (k, v) :: rest, key => if k = key then some v else lookupA rest key

/-- The keys of an edge map. -/
def keysA (em : List ((Nat × Nat) × ℚ)) : List (Nat × Nat) := em.map Prod.fst

/-- Folding a list of contributions into an edge map with `bumpEdge`. -/
def aggregate (em : List ((Nat × Nat) × ℚ)) (cs : List ((Nat × Nat) × ℚ)) :
    List ((Nat × Nat) × ℚ) :=
  cs.foldl (fun acc c => bumpEdge acc c.1 c.2) em

/-- The total weight a list of contributions records for one key: the sum
of the co-occurrence counts of both directions of the pair. -/
def totalWeight (cs : List ((Nat × Nat) × ℚ)) (key : Nat × Nat) : ℚ :=
  ((cs.filter (fun c => decide (c.1 = key))).map Prod.snd).sum

/-- A node with a chosen metadata key, used by witnesses. -/
def mkSimpleNode (id : Nat) (key : String) : Node :=
  ⟨id, key, key, [], ⟨⟨0, 0, 0⟩, ⟨0, 0, 0⟩, 0, 0⟩⟩

/-- A metadata record with chosen topic counts, used by witnesses. -/
def sampleMeta (name : String) (tcs : List (String × Nat)) : Metadata :=
  ⟨name, 0, 0, 0, "", "", "", tcs⟩

/-! ### Rebuild mutual exclusion (`build_graph_from_metadata`, lines
468-487, and the `RebuildGuard`) -/

/-- `GRAPH_REBUILD_IN_PROGRESS.compare_exchange(false, true)` (line 473):
returns the new flag value and whether the exchange succeeded. -/
def rebuildTryAcquire (flag : Bool) : Bool × Bool :=
  if flag = true then (flag, false) else (true, true)

/-- The `RebuildGuard` drop (lines 479-486): store `false` on every exit
path of a build that acquired the flag. -/
def rebuildRelease (_flag : Bool) : Bool := false

/-- `GraphService::build_graph_from_metadata` as a state transformer on the
process-wide rebuild flag.  `mkNodes` abstracts pass 1 (node creation via
`Node::new_with_id`, outside this repository's files); the in-place
position initialisation touches neither ids nor edges and is modelled
separately over the reals. -/
def build_graph_from_metadata (mkNodes : MetadataStore → List Node)
    (flag : Bool) (store : MetadataStore) :
    Bool × Except String (List Node × List Edge) :=
  let acq := rebuildTryAcquire flag
  if acq.2 = false then
    (acq.1, Except.error ("Graph rebuild already in progress"))
  else
    let ns := mkNodes store
    (rebuildRelease acq.1, Except.ok (ns, edgesOfMap (buildEdgeMap ns store)))

/-! ### Fibonacci-sphere placement (`initialize_random_positions`, lines
628-670)

This code is transcendental (`sin`, `cos`, `acos`, `sqrt`, π), so it is
modelled over the real numbers; the per-node jitter drawn by
`rng.gen_range(0.0..0.2)` is an explicit stream `jit` of reals in
`[0, 0.2)`. -/

@[ext] structure Vec3R where
  x : ℝ
  y : ℝ
  z : ℝ

/-- A node's mutable physical state: position and velocity. -/
structure NodeR where
  position : Vec3R
  velocity : Vec3R

/-- `let golden_ratio = (1.0 + 5.0_f32.sqrt()) / 2.0;` (line 632). -/
noncomputable def golden_ratio : ℝ := (1 + Real.sqrt 5) / 2

/-- `let theta = 2.0 * PI * i_float / golden_ratio;` (line 645). -/
noncomputable def fibTheta (i : ℕ) : ℝ := 2 * Real.pi * i / golden_ratio

/-- `let phi = (1.0 - 2.0 * (i_float + 0.5) / node_count).acos();`
(line 646). -/
noncomputable def fibPhi (N i : ℕ) : ℝ :=
  Real.arccos (1 - 2 * ((i : ℝ) + 0.5) / N)

/-- `let r = initial_radius * (0.9 + rng.gen_range(0.0..0.2));` (line 649)
with `initial_radius = 3.0` (line 631). -/
noncomputable def fibRadius (jit : ℕ → ℝ) (i : ℕ) : ℝ := 3 * (0.9 + jit i)

/-- The position written by lines 651-653:
`(r sin φ cos θ, r sin φ sin θ, r cos φ)`. -/
noncomputable def fibPosition (jit : ℕ → ℝ) (N i : ℕ) : Vec3R :=
  ⟨fibRadius jit i * Real.sin (fibPhi N i) * Real.cos (fibTheta i),
   fibRadius jit i * Real.sin (fibPhi N i) * Real.sin (fibTheta i),
   fibRadius jit i * Real.cos (fibPhi N i)⟩

/-- `GraphService::initialize_random_positions` (lines 628-670): for every
node, indexed in order, set the Fibonacci-sphere position and a zero
velocity. -/
noncomputable def init_random_positions (jit : ℕ → ℝ) (ns : List NodeR) :
    List NodeR :=
  ns.enum.map (fun inode =>
    { inode.2 with position := fibPosition jit ns.length inode.1,
                   velocity := ⟨0, 0, 0⟩ })

/-- Euclidean distance from the origin. -/
noncomputable def normR (v : Vec3R) : ℝ :=
  Real.sqrt (v.x ^ 2 + v.y ^ 2 + v.z ^ 2)

/-! ### Pagination (`get_paginated_graph_data`, lines 934-993) -/

/-- `let start = page * page_size;` (line 946), on `usize` values. -/
def pagStart (page page_size : Nat) : Nat := page * page_size

/-- `let end = std::cmp::min((page + 1) * page_size, total_nodes);`
(line 947). -/
def pagEnd (page page_size total_nodes : Nat) : Nat :=
  min ((page + 1) * page_size) total_nodes

end GraphService

namespace GraphService

/-! ### Theorems for claim C1 -/

/-- C1: when every GPU attempt fails, `calculate_layout_with_retry` makes
exactly 3 GPU attempts with sleeps of 500·2^attempt ms between consecutive
attempts (none after the last), then runs the CPU fallback exactly once; if
the CPU fallback also fails the returned error is the last GPU error; and
if some GPU attempt succeeds (all earlier ones failing), the function
returns `Ok` at that attempt with no sleep after it, no later attempt and
no CPU fallback. -/
theorem calculate_layout_with_retry_policy (gpu : Nat → Except String Unit)
    (cpu : Except String Unit) (es : Nat → String) :
    ((∀ k, k < MAX_GPU_CALCULATION_RETRIES → gpu k = Except.error (es k)) →
      (calculate_layout_with_retry gpu cpu).1 =
        [RetryEv.gpuAttempt 0, RetryEv.sleepMs 500, RetryEv.gpuAttempt 1,
         RetryEv.sleepMs 1000, RetryEv.gpuAttempt 2, RetryEv.cpuRun] ∧
      (cpu = Except.ok () → (calculate_layout_with_retry gpu cpu).2 = Except.ok ()) ∧
      (∀ ce, cpu = Except.error ce →
        (calculate_layout_with_retry gpu cpu).2 = Except.error (es 2))) ∧
    (∀ k, k < MAX_GPU_CALCULATION_RETRIES → gpu k = Except.ok () →
      (∀ j, j < k → gpu j = Except.error (es j)) →
      (calculate_layout_with_retry gpu cpu).2 = Except.ok () ∧
      (calculate_layout_with_retry gpu cpu).1 =
        failPrefix k ++ [RetryEv.gpuAttempt k]) := by
  constructor
  · intro hg
    have h0 := hg 0 (by decide)
    have h1 := hg 1 (by decide)
    have h2 := hg 2 (by decide)
    refine ⟨?_, ?_, ?_⟩
    · simp [calculate_layout_with_retry, retryLoop, MAX_GPU_CALCULATION_RETRIES,
        GPU_RETRY_DELAY_MS, h0, h1, h2]
      cases cpu <;> simp
    · intro hc
      simp [calculate_layout_with_retry, retryLoop, MAX_GPU_CALCULATION_RETRIES,
        GPU_RETRY_DELAY_MS, h0, h1, h2, hc]
    · intro ce hc
      simp [calculate_layout_with_retry, retryLoop, MAX_GPU_CALCULATION_RETRIES,
        GPU_RETRY_DELAY_MS, h0, h1, h2, hc]
  · intro k hk hok hfail
    have hk3 : k < 3 := hk
    interval_cases k
    · simp [calculate_layout_with_retry, retryLoop, MAX_GPU_CALCULATION_RETRIES,
        failPrefix, hok]
    · have h0 := hfail 0 (by decide)
      simp [calculate_layout_with_retry, retryLoop, MAX_GPU_CALCULATION_RETRIES,
        GPU_RETRY_DELAY_MS, failPrefix, h0, hok]
    · have h0 := hfail 0 (by decide)
      have h1 := hfail 1 (by decide)
      simp [calculate_layout_with_retry, retryLoop, MAX_GPU_CALCULATION_RETRIES,
        GPU_RETRY_DELAY_MS, failPrefix, h0, h1, hok]

/-- Witness for C1: with a GPU oracle failing every attempt with message
"gpu boom" and a failing CPU oracle, the theorem yields the full trace and
the GPU error; with a GPU oracle succeeding at attempt 0, it yields an
immediate `Ok`. -/
theorem calculate_layout_with_retry_policy_witness :
    (calculate_layout_with_retry (fun _ => Except.error ("gpu boom"))
        (Except.error ("cpu boom"))).2 = Except.error ("gpu boom") ∧
    (calculate_layout_with_retry (fun _ => Except.ok ()) (Except.ok ())).1 =
      [RetryEv.gpuAttempt 0] := by
  constructor
  · exact ((calculate_layout_with_retry_policy (fun _ => Except.error ("gpu boom"))
      (Except.error ("cpu boom")) (fun _ => "gpu boom")).1
      (fun k _ => rfl)).2.2 "cpu boom" rfl
  · exact ((calculate_layout_with_retry_policy (fun _ => Except.ok ())
      (Except.ok ()) (fun _ => "")).2 0 (by decide) rfl
      (fun j hj => absurd hj (Nat.not_lt_zero j))).2

/-! ### Theorems for claim C2 -/

/-- C2 counterexample: the claim as stated is false.  On an exit path where
the global `SIMULATION_LOOP_RUNNING` flag is already `false` (a superseding
instance has force-reset it), the scopeguard's `compare_exchange` fails and
`shutdown_complete` is NOT set to true. -/
theorem loop_exit_cleanup_counterexample :
    ¬ ((spawnedLoopExit LoopExitReason.abnormal false false).1 = false ∧
       (spawnedLoopExit LoopExitReason.abnormal false false).2 = true) := by
  decide

/-- C2 (amended): whenever the spawned simulation loop exits, whatever the
exit reason, the scopeguard cleanup runs exactly once and acts the same
way; it always leaves the global running flag `false`, and it sets the
instance's `shutdown_complete` flag to true exactly when the running flag
was still true at exit (otherwise `shutdown_complete` keeps its previous
value and only an error is logged). -/
theorem loop_exit_cleanup (reason : LoopExitReason) (running complete : Bool) :
    spawnedLoopExit reason running complete = loopCleanup running complete ∧
    (spawnedLoopExit reason running complete).1 = false ∧
    ((spawnedLoopExit reason running complete).2 = true ↔
      (running = true ∨ complete = true)) := by
  cases running <;> cases complete <;> simp [spawnedLoopExit, loopCleanup]

/-! ### Theorems for claim C7 -/

/-- C7: a cache entry younger than the 50 ms TTL is returned as-is without
reading the primary graph store; a stale or absent entry causes a live read
that repopulates the cache with the new timestamp; two reads within the TTL
with no intervening tick return identical snapshots; and a read after a
tick's invalidation or an explicit clear reflects the new live state. -/
theorem get_node_positions_cache_coherence (g g2 ns : List Node)
    (t t1 t2 now : Nat) :
    (now - t < NODE_POSITION_CACHE_TTL_MS →
      get_node_positions true g (some (ns, t)) now = (ns, some (ns, t)) ∧
      get_node_positions true g (some (ns, t)) now =
        get_node_positions true g2 (some (ns, t)) now) ∧
    (¬ now - t < NODE_POSITION_CACHE_TTL_MS →
      get_node_positions true g (some (ns, t)) now = (g, some (g, now))) ∧
    get_node_positions true g none now = (g, some (g, now)) ∧
    (t2 - t1 < NODE_POSITION_CACHE_TTL_MS →
      (get_node_positions true g (get_node_positions true g none t1).2 t2).1 =
        (get_node_positions true g none t1).1) ∧
    get_node_positions true g2 (tick_invalidate_cache (some (ns, t))) now =
      (g2, some (g2, now)) ∧
    get_node_positions true g2 (clear_position_cache (some (ns, t))) now =
      (g2, some (g2, now)) := by
  refine ⟨?_, ?_, rfl, ?_, rfl, rfl⟩
  · intro h
    constructor <;> simp [get_node_positions, h]
  · intro h
    simp [get_node_positions, h]
  · intro h
    simp [get_node_positions, tick_invalidate_cache, h]

/-- Witness for C7: a 10 ms old cache entry is served from the cache; a
60 ms old one causes a live read and repopulation. -/
theorem get_node_positions_cache_coherence_witness :
    get_node_positions true [sampleNode 1 0] (some ([sampleNode 2 1], 0)) 10 =
      ([sampleNode 2 1], some ([sampleNode 2 1], 0)) ∧
    get_node_positions true [sampleNode 1 0] (some ([sampleNode 2 1], 0)) 60 =
      ([sampleNode 1 0], some ([sampleNode 1 0], 60)) := by
  exact ⟨((get_node_positions_cache_coherence [sampleNode 1 0] [sampleNode 1 0]
      [sampleNode 2 1] 0 0 0 10).1 (by decide)).1,
    (get_node_positions_cache_coherence [sampleNode 1 0] [sampleNode 1 0]
      [sampleNode 2 1] 0 0 0 60).2.1 (by decide)⟩

/-! ### Theorems for claim C8 -/

/-- C8 counterexample: the claim as stated is false.  An update arriving
exactly 16 ms after the last accepted one does not *exceed* the 16 ms
minimum interval, yet the code applies it (the rejection test is
`elapsed < 16`, so acceptance is `elapsed ≥ 16`). -/
theorem update_rate_limit_counterexample :
    ¬ ((16 : Nat) - 0 > UPDATE_RATE_LIMIT_MS) ∧
    (processUpdates 0 (fun i => if i = 1 then some (sampleNode 1 0) else none)
        [(16, 1, sampleNode 1 5)]).2 1 =
      some (applyNodeUpdate (sampleNode 1 0) (sampleNode 1 5)) := by
  exact ⟨by decide, rfl⟩

/-- C8 (amended): an externally submitted node update is applied only if
the elapsed time since the last accepted update is at least the fixed 16 ms
minimum interval (an update at exactly the boundary is applied); an
acceptance advances the shared last-accepted timestamp to the update's
time; a rejected update is dropped silently — the timestamp, the node map
and hence the stored node states are left unchanged and the update is never
queued — so a burst of faster-than-interval updates has only its
interval-spaced members applied. -/
theorem update_node_positions_rate_limit (last now node_id : Nat)
    (m : NodeMap) (upd : Node) (rest : List (Nat × Nat × Node))
    (g : List Node) :
    (now - last < UPDATE_RATE_LIMIT_MS →
      processUpdates last m ((now, node_id, upd) :: rest) =
        processUpdates last m rest ∧
      update_node_positions last m g ((now, node_id, upd) :: rest) =
        update_node_positions last m g rest) ∧
    (¬ now - last < UPDATE_RATE_LIMIT_MS →
      (∀ existing, m node_id = some existing →
        processUpdates last m ((now, node_id, upd) :: rest) =
          processUpdates now
            (fun i => if i = node_id then some (applyNodeUpdate existing upd)
                      else m i) rest) ∧
      (m node_id = none →
        processUpdates last m ((now, node_id, upd) :: rest) =
          processUpdates now m rest)) := by
  constructor
  · intro h
    have hrl : should_rate_limit last now = (true, last) := by
      simp [should_rate_limit, h]
    exact ⟨by simp [processUpdates, hrl],
      by simp [update_node_positions, processUpdates, hrl]⟩
  · intro h
    have hrl : should_rate_limit last now = (false, now) := by
      simp [should_rate_limit, h]
    constructor
    · intro existing hex
      simp [processUpdates, hrl, hex]
    · intro hnone
      simp [processUpdates, hrl, hnone]

/-- Witness for C8: an update 5 ms after the last acceptance is dropped; an
update 20 ms after it advances the timestamp to 20. -/
theorem update_node_positions_rate_limit_witness :
    processUpdates 0 (fun _ => none) [(5, 1, sampleNode 1 2)] =
      processUpdates 0 (fun _ => none) [] ∧
    processUpdates 0 (fun _ => none) [(20, 1, sampleNode 1 2)] =
      processUpdates 20 (fun _ => none) [] := by
  exact ⟨((update_node_positions_rate_limit 0 5 1 (fun _ => none)
      (sampleNode 1 2) [] []).1 (by decide)).1,
    ((update_node_positions_rate_limit 0 20 1 (fun _ => none)
      (sampleNode 1 2) [] []).2 (by decide)).2 rfl⟩

/-! ### Theorems for claim C6 -/

/-- If no poll in the window succeeds, the wait loop times out. -/
theorem shutdownPoll_timedOut (env : Nat → Bool × Bool) :
    ∀ r k, (∀ j, k ≤ j → j < k + r → ¬ ((env j).1 = false ∧ (env j).2 = true)) →
    shutdownPoll env k r = ShutdownOutcome.timedOut := by
  intro r
  induction r with
  | zero => intro k _; rfl
  | succ r ih =>
    intro k h
    have h0 : ¬ ((env k).1 = false ∧ (env k).2 = true) :=
      h k (le_refl k) (by omega)
    simp only [shutdownPoll, if_neg h0]
    exact ih (k + 1) (fun j hj1 hj2 => h j (by omega) (by omega))

/-- If the first successful poll in the window is the one at offset `d`,
the wait loop stops there. -/
theorem shutdownPoll_stopped (env : Nat → Bool × Bool) :
    ∀ d k r, d < r → ((env (k + d)).1 = false ∧ (env (k + d)).2 = true) →
    (∀ j, k ≤ j → j < k + d → ¬ ((env j).1 = false ∧ (env j).2 = true)) →
    shutdownPoll env k r = ShutdownOutcome.stopped (k + d) := by
  intro d
  induction d with
  | zero =>
    intro k r hr hgood _
    obtain ⟨r2, rfl⟩ : ∃ r2, r = r2 + 1 := ⟨r - 1, by omega⟩
    have hg : (env k).1 = false ∧ (env k).2 = true := by simpa using hgood
    simp only [Nat.add_zero, shutdownPoll, if_pos hg]
  | succ d ih =>
    intro k r hr hgood hbefore
    obtain ⟨r2, rfl⟩ : ∃ r2, r = r2 + 1 := ⟨r - 1, by omega⟩
    have h0 : ¬ ((env k).1 = false ∧ (env k).2 = true) :=
      hbefore k (le_refl k) (by omega)
    simp only [shutdownPoll, if_neg h0]
    have he : k + 1 + d = k + (d + 1) := by omega
    have hgood2 : (env (k + 1 + d)).1 = false ∧ (env (k + 1 + d)).2 = true := by
      rw [he]; exact hgood
    have hres := ih (k + 1) r2 (by omega) hgood2
      (fun j hj1 hj2 => hbefore j (by omega) (by omega))
    rw [he] at hres
    exact hres

/-- C6: shutting down an instance whose id differs from the globally active
one returns immediately, raising no error, leaving the instance's
shutdown-request flag and the global running flag untouched; on an id
match it sets the shutdown-request flag, never writes the running flag, and
polls up to `SHUTDOWN_TIMEOUT_MS / 50` times for the running flag to clear
and shutdown-complete to be set, returning the successful attempt on
success and timing out non-fatally otherwise. -/
theorem shutdown_protocol (selfId activeId : String)
    (requested complete running : Bool) (env : Nat → Bool × Bool) :
    (activeId ≠ selfId →
      shutdown selfId activeId requested complete running env =
        (requested, complete, running, ShutdownOutcome.refused)) ∧
    (activeId = selfId →
      (shutdown selfId activeId requested complete running env).1 = true ∧
      (shutdown selfId activeId requested complete running env).2.2.1 = running ∧
      (∀ k, k < SHUTDOWN_TIMEOUT_MS / 50 →
        ((env k).1 = false ∧ (env k).2 = true) →
        (∀ j, j < k → ¬ ((env j).1 = false ∧ (env j).2 = true)) →
        (shutdown selfId activeId requested complete running env).2.2.2 =
          ShutdownOutcome.stopped k) ∧
      ((∀ k, k < SHUTDOWN_TIMEOUT_MS / 50 →
          ¬ ((env k).1 = false ∧ (env k).2 = true)) →
        (shutdown selfId activeId requested complete running env).2.2.2 =
          ShutdownOutcome.timedOut)) := by
  constructor
  · intro h
    simp [shutdown, h]
  · intro h
    have hne : ¬ activeId ≠ selfId := not_not_intro h
    refine ⟨by simp [shutdown, hne], by simp [shutdown, hne], ?_, ?_⟩
    · intro k hk hgood hbefore
      have := shutdownPoll_stopped env k 0 (SHUTDOWN_TIMEOUT_MS / 50) hk
        (by rw [Nat.zero_add]; exact hgood)
        (fun j hj1 hj2 => hbefore j (by omega))
      simp [shutdown, hne, this]
    · intro hall
      have := shutdownPoll_timedOut env (SHUTDOWN_TIMEOUT_MS / 50) 0
        (fun j hj1 hj2 => hall j (by omega))
      simp [shutdown, hne, this]

/-- Witness for C6: shutting down the superseded instance "a" while "b" is
active is a no-op; shutting down the active instance "b" with the loop's
flags already cleared stops at the first poll. -/
theorem shutdown_protocol_witness :
    shutdown "a" "b" false false true (fun _ => (true, false)) =
      (false, false, true, ShutdownOutcome.refused) ∧
    (shutdown "b" "b" false false true (fun _ => (false, true))).2.2.2 =
      ShutdownOutcome.stopped 0 := by
  exact ⟨(shutdown_protocol "a" "b" false false true
      (fun _ => (true, false))).1 (by decide),
    ((shutdown_protocol "b" "b" false false true
      (fun _ => (false, true))).2 rfl).2.2.1 0 (by decide) ⟨rfl, rfl⟩
      (fun j hj => absurd hj (Nat.not_lt_zero j))⟩

/-! ### Theorems for claim C5 -/

/-- C5: a build called while the process-wide rebuild flag is set fails
immediately with the explicit "already building" error, producing no graph
and leaving the flag to its owner; a build that acquires the flag completes
with a graph; in an overlapping schedule (B's whole call runs inside A's
critical section) A's acquisition succeeds, B fails immediately, A's guard
resets the flag on exit, and a later non-concurrent build succeeds. -/
theorem build_graph_mutual_exclusion (mk mk2 : MetadataStore → List Node)
    (store store2 next : MetadataStore) :
    build_graph_from_metadata mk2 true store2 =
      (true, Except.error ("Graph rebuild already in progress")) ∧
    (∃ g, build_graph_from_metadata mk false store = (false, Except.ok g)) ∧
    (rebuildTryAcquire false).2 = true ∧
    (build_graph_from_metadata mk2 (rebuildTryAcquire false).1 store2).2 =
      Except.error ("Graph rebuild already in progress") ∧
    rebuildRelease (rebuildTryAcquire false).1 = false ∧
    (∃ g, build_graph_from_metadata mk
        (rebuildRelease (rebuildTryAcquire false).1) next = (false, Except.ok g)) := by
  refine ⟨rfl, ⟨_, rfl⟩, rfl, rfl, rfl, ⟨_, rfl⟩⟩

/-! ### Theorems for claim C3 -/

theorem Vec3.add_x (a b : Vec3) : (a + b).x = a.x + b.x := rfl

theorem Vec3.add_y (a b : Vec3) : (a + b).y = a.y + b.y := rfl

theorem Vec3.add_z (a b : Vec3) : (a + b).z = a.z + b.z := rfl

theorem Vec3.zero_x : (0 : Vec3).x = 0 := rfl

theorem Vec3.zero_y : (0 : Vec3).y = 0 := rfl

theorem Vec3.zero_z : (0 : Vec3).z = 0 := rfl

/-- Folding a step that adds a per-element contribution pointwise equals
adding the summed contributions pointwise. -/
theorem foldl_addContrib {α : Type} (s : (Nat → Vec3) → α → Nat → Vec3)
    (c : α → Nat → Vec3) (hs : ∀ F x, s F x = fun k => F k + c x k) :
    ∀ (xs : List α) (F : Nat → Vec3),
    xs.foldl s F = fun k => F k + (xs.map (fun x => c x k)).sum := by
  intro xs
  induction xs with
  | nil =>
    intro F
    funext k
    simp
  | cons x xs ih =>
    intro F
    rw [List.foldl_cons, hs, ih]
    funext k
    simp only [List.map_cons, List.sum_cons]
    rw [add_assoc]

/-- Writing the two array-slot updates `forces[i] -= f; forces[j] += f` as
a pointwise addition of the magnitude-times-unit-vector contribution. -/
theorem applyPair_sub_add (F : Nat → Vec3) (i j k : Nat) (mag ux uy uz : ℚ) :
    (if k = i then
        (⟨(F i).x - ux * mag, (F i).y - uy * mag, (F i).z - uz * mag⟩ : Vec3)
      else if k = j then
        ⟨(F j).x + ux * mag, (F j).y + uy * mag, (F j).z + uz * mag⟩
      else F k)
    = F k + (if k = i then Vec3.smul (-mag) ⟨ux, uy, uz⟩
             else if k = j then Vec3.smul mag ⟨ux, uy, uz⟩ else 0) := by
  split_ifs <;> subst_vars <;>
    (refine Vec3.ext ?_ ?_ ?_ <;>
      dsimp only [Vec3.smul, Vec3.add_x, Vec3.add_y, Vec3.add_z,
        Vec3.zero_x, Vec3.zero_y, Vec3.zero_z] <;> ring)

/-- Writing the two array-slot updates `forces[i] += f; forces[j] -= f` as
a pointwise addition of the magnitude-times-unit-vector contribution. -/
theorem applyPair_add_sub (F : Nat → Vec3) (i j k : Nat) (mag ux uy uz : ℚ) :
    (if k = i then
        (⟨(F i).x + ux * mag, (F i).y + uy * mag, (F i).z + uz * mag⟩ : Vec3)
      else if k = j then
        ⟨(F j).x - ux * mag, (F j).y - uy * mag, (F j).z - uz * mag⟩
      else F k)
    = F k + (if k = i then Vec3.smul mag ⟨ux, uy, uz⟩
             else if k = j then Vec3.smul (-mag) ⟨ux, uy, uz⟩ else 0) := by
  split_ifs <;> subst_vars <;>
    (refine Vec3.ext ?_ ?_ ?_ <;>
      dsimp only [Vec3.smul, Vec3.add_x, Vec3.add_y, Vec3.add_z,
        Vec3.zero_x, Vec3.zero_y, Vec3.zero_z] <;> ring)

/-- The repulsion loop body adds exactly the specified repulsive
contribution of its pair to every node's accumulated force. -/
theorem repulsionStep_add (S : ℚ → ℚ) (p : SimulationParams) (ns : List Node) :
    ∀ (F : Nat → Vec3) (ij : Nat × Nat),
    repulsionStep S p ns F ij = fun k => F k + repContrib S p ns ij k := by
  intro F ij
  funext k
  simp only [repulsionStep, repContrib]
  by_cases h1 :
      quadrance (delta (nodeAt ns ij.1) (nodeAt ns ij.2)) < 1 / 10000
  · rw [if_pos h1, if_pos (Or.inl h1)]
    exact (add_zero (F k)).symm
  · rw [if_neg h1]
    by_cases h2 : p.max_repulsion_distance <
        S (quadrance (delta (nodeAt ns ij.1) (nodeAt ns ij.2)))
    · rw [if_pos h2, if_pos (Or.inr h2)]
      exact (add_zero (F k)).symm
    · rw [if_neg h2, if_neg (not_or.mpr ⟨h1, h2⟩)]
      exact applyPair_sub_add F ij.1 ij.2 k _ _ _ _

/-- The spring loop body adds exactly the specified attractive
contribution of its edge to every node's accumulated force. -/
theorem springStep_add (S : ℚ → ℚ) (p : SimulationParams) (ns : List Node) :
    ∀ (F : Nat → Vec3) (e : Edge),
    springStep S p ns F e = fun k => F k + attrContrib S p ns e k := by
  intro F e
  funext k
  rcases h1 : ns.findIdx? (fun n => n.id == e.source) with _ | i <;>
    rcases h2 : ns.findIdx? (fun n => n.id == e.target) with _ | j <;>
    simp only [springStep, attrContrib, h1, h2]
  · simp
  · simp
  · simp
  · by_cases heps : quadrance (delta (nodeAt ns i) (nodeAt ns j)) < 1 / 10000
    · rw [if_pos heps, if_pos heps]
      exact (add_zero (F k)).symm
    · rw [if_neg heps, if_neg heps]
      exact applyPair_add_sub F i j k _ _ _ _

/-- The accumulated force table of the code equals the specified per-node
force. -/
theorem forces_eq (S : ℚ → ℚ) (p : SimulationParams) (g : GraphData) :
    g.edges.foldl (springStep S p g.nodes)
      ((pairList g.nodes.length).foldl (repulsionStep S p g.nodes)
        (fun _ => 0)) = specForce S g p := by
  rw [foldl_addContrib (repulsionStep S p g.nodes)
    (fun ij k => repContrib S p g.nodes ij k) (repulsionStep_add S p g.nodes)]
  rw [foldl_addContrib (springStep S p g.nodes)
    (fun e k => attrContrib S p g.nodes e k) (springStep_add S p g.nodes)]
  funext k
  simp [specForce]

/-- The single final loop — integrate one node, then mirror it — splits
into the integrated node list and the mirror fold over it. -/
theorem integratePass_spec (p : SimulationParams) (F : Nat → Vec3) :
    ∀ (l : List (Nat × Node)) (A : List Node) (m : NodeMap),
    l.foldl (integratePass p F) (A, m) =
      (A ++ l.map (fun inode => integrateNode p F inode.1 inode.2),
       (l.map (fun inode => integrateNode p F inode.1 inode.2)).foldl
         mirrorNode m) := by
  intro l
  induction l with
  | nil =>
    intro A m
    simp
  | cons x l ih =>
    intro A m
    rw [List.foldl_cons]
    show l.foldl (integratePass p F)
      (A ++ [integrateNode p F x.1 x.2],
       mirrorNode m (integrateNode p F x.1 x.2)) = _
    rw [ih]
    simp

/-- The code's component-wise semi-implicit Euler step is the specified
one. -/
theorem integrateNode_eq_specIntegrate (p : SimulationParams)
    (F : Nat → Vec3) (i : Nat) (n : Node) :
    integrateNode p F i n = specIntegrate p F i n := by
  simp only [integrateNode, specIntegrate]
  congr 1
  congr 1
  · refine Vec3.ext ?_ ?_ ?_ <;>
      simp [Vec3.smul, Vec3.add_x, Vec3.add_y, Vec3.add_z] <;> ring
  · refine Vec3.ext ?_ ?_ ?_ <;>
      simp [Vec3.smul, Vec3.add_x, Vec3.add_y, Vec3.add_z] <;> ring

/-- C3: one call of `calculate_layout_cpu` computes exactly the specified
tick — per unordered pair, the epsilon/range-guarded repulsive force of
magnitude `repulsion * mass_i * mass_j / distance²` (with
`mass = raw/255 * 10 * mass_scale`) applied equally and oppositely along
the unit separation; per resolvable edge, the epsilon-guarded attractive
force of magnitude `spring_strength * weight * distance` pulling the
endpoints together; then a single semi-implicit Euler pass
(`v' = v * damping + F * dt`, `pos' = pos + v' * dt`) over every node,
each updated node mirrored into the id-indexed node map. -/
theorem calculate_layout_cpu_matches_spec (S : ℚ → ℚ) (g : GraphData)
    (m : NodeMap) (p : SimulationParams) :
    calculate_layout_cpu S g m p = cpuLayoutSpec S g m p := by
  by_cases h : g.nodes.length = 0
  · simp [calculate_layout_cpu, cpuLayoutSpec, h]
  · simp only [calculate_layout_cpu, cpuLayoutSpec, if_neg h]
    rw [forces_eq, integratePass_spec]
    have hfun : (fun inode : Nat × Node =>
        integrateNode p (specForce S g p) inode.1 inode.2)
        = fun inode => specIntegrate p (specForce S g p) inode.1 inode.2 :=
      funext fun inode =>
        integrateNode_eq_specIntegrate p (specForce S g p) inode.1 inode.2
    rw [hfun]
    simp

/-! ### Theorems for claim C4 -/

/-- A canonical key of a non-self pair has its lower id first. -/
theorem canonKey_lt {a b : Nat} (h : a ≠ b) : (canonKey a b).1 < (canonKey a b).2 := by
  unfold canonKey
  split_ifs with hab
  · exact hab
  · omega

/-- Looking a key up after a `bumpEdge`: the bumped key's weight grows by
`w` (from 0 for a fresh key); every other key is untouched. -/
theorem lookupA_bumpEdge (key : Nat × Nat) (w : ℚ) :
    ∀ (em : List ((Nat × Nat) × ℚ)) (key2 : Nat × Nat),
    lookupA (bumpEdge em key w) key2 =
      if key2 = key then some ((lookupA em key).getD 0 + w)
      else lookupA em key2 := by
  intro em
  induction em with
  | nil =>
    intro key2
    by_cases h : key2 = key
    · subst h; simp [bumpEdge, lookupA]
    · have h2 : ¬ key = key2 := fun he => h he.symm
      simp [bumpEdge, lookupA, h, h2]
  | cons kv rest ih =>
    intro key2
    obtain ⟨k, v⟩ := kv
    by_cases hk : k = key
    · subst hk
      have hstep : bumpEdge ((k, v) :: rest) k w = (k, v + w) :: rest := by
        simp [bumpEdge]
      rw [hstep]
      by_cases h : key2 = k
      · subst h; simp [lookupA]
      · have h2 : ¬ k = key2 := fun he => h he.symm
        simp [lookupA, h, h2]
    · have hstep : bumpEdge ((k, v) :: rest) key w = (k, v) :: bumpEdge rest key w := by
        simp [bumpEdge, hk]
      rw [hstep]
      by_cases h : key2 = key
      · subst h
        have h2 : ¬ k = key2 := hk
        simp [lookupA, h2, ih]
      · by_cases hk2 : k = key2 <;> simp [lookupA, hk, hk2, ih, h]

/-- Membership in the keys after a `bumpEdge`. -/
theorem mem_keysA_bumpEdge (key : Nat × Nat) (w : ℚ) :
    ∀ (em : List ((Nat × Nat) × ℚ)) (key2 : Nat × Nat),
    key2 ∈ keysA (bumpEdge em key w) ↔ key2 ∈ keysA em ∨ key2 = key := by
  intro em
  induction em with
  | nil =>
    intro key2
    simp [bumpEdge, keysA]
  | cons kv rest ih =>
    intro key2
    obtain ⟨k, v⟩ := kv
    by_cases hk : k = key
    · subst hk
      have hstep : bumpEdge ((k, v) :: rest) k w = (k, v + w) :: rest := by
        simp [bumpEdge]
      rw [hstep]
      simp [keysA]
      tauto
    · have hstep : bumpEdge ((k, v) :: rest) key w = (k, v) :: bumpEdge rest key w := by
        simp [bumpEdge, hk]
      rw [hstep]
      simp only [keysA, List.map_cons, List.mem_cons]
      rw [show (bumpEdge rest key w).map Prod.fst = keysA (bumpEdge rest key w) from rfl]
      rw [ih]
      simp [keysA]
      tauto

/-- `bumpEdge` keeps the keys nodup. -/
theorem nodup_keysA_bumpEdge (key : Nat × Nat) (w : ℚ) :
    ∀ (em : List ((Nat × Nat) × ℚ)), (keysA em).Nodup →
    (keysA (bumpEdge em key w)).Nodup := by
  intro em
  induction em with
  | nil => intro _; simp [bumpEdge, keysA]
  | cons kv rest ih =>
    intro hnd
    obtain ⟨k, v⟩ := kv
    rw [keysA, List.map_cons, List.nodup_cons] at hnd
    by_cases hk : k = key
    · subst hk
      have hstep : bumpEdge ((k, v) :: rest) k w = (k, v + w) :: rest := by
        simp [bumpEdge]
      rw [hstep, keysA, List.map_cons, List.nodup_cons]
      exact hnd
    · have hstep : bumpEdge ((k, v) :: rest) key w = (k, v) :: bumpEdge rest key w := by
        simp [bumpEdge, hk]
      rw [hstep, keysA, List.map_cons, List.nodup_cons]
      constructor
      · intro hmem
        rcases (mem_keysA_bumpEdge key w rest k).mp hmem with h | h
        · exact hnd.1 h
        · exact hk h
      · exact ih hnd.2

/-- A key is absent from an edge map exactly when its lookup is `none`. -/
theorem lookupA_eq_none_iff :
    ∀ (em : List ((Nat × Nat) × ℚ)) (key : Nat × Nat),
    lookupA em key = none ↔ key ∉ keysA em := by
  intro em
  induction em with
  | nil => intro key; simp [lookupA, keysA]
  | cons kv rest ih =>
    intro key
    obtain ⟨k, v⟩ := kv
    by_cases h : k = key
    · subst h
      simp [lookupA, keysA]
    · have h2 : ¬ key = k := fun he => h he.symm
      simp [lookupA, keysA, h, h2, ih]

/-- One contribution's effect on a total weight. -/
theorem totalWeight_cons (c : (Nat × Nat) × ℚ) (cs : List ((Nat × Nat) × ℚ))
    (key : Nat × Nat) :
    totalWeight (c :: cs) key =
      (if c.1 = key then c.2 else 0) + totalWeight cs key := by
  by_cases h : c.1 = key <;> simp [totalWeight, List.filter_cons, h]

/-- Aggregating contribution lists in sequence. -/
theorem aggregate_append (em : List ((Nat × Nat) × ℚ))
    (xs ys : List ((Nat × Nat) × ℚ)) :
    aggregate em (xs ++ ys) = aggregate (aggregate em xs) ys := by
  simp [aggregate, List.foldl_append]

/-- The aggregated weight of a key is its previous weight plus the total of
the contributions. -/
theorem lookupA_aggregate_getD :
    ∀ (cs em : List ((Nat × Nat) × ℚ)) (key : Nat × Nat),
    (lookupA (aggregate em cs) key).getD 0 =
      (lookupA em key).getD 0 + totalWeight cs key := by
  intro cs
  induction cs with
  | nil => intro em key; simp [aggregate, totalWeight]
  | cons c cs ih =>
    intro em key
    have step : aggregate em (c :: cs) = aggregate (bumpEdge em c.1 c.2) cs := rfl
    rw [step, ih, totalWeight_cons, lookupA_bumpEdge]
    by_cases h : key = c.1
    · subst h
      rw [if_pos rfl, if_pos rfl]
      simp only [Option.getD_some]
      ring
    · have h2 : ¬ c.1 = key := fun he => h he.symm
      rw [if_neg h, if_neg h2, zero_add]

/-- Keys after aggregation: the old keys plus the contributions' keys. -/
theorem mem_keysA_aggregate :
    ∀ (cs em : List ((Nat × Nat) × ℚ)) (key : Nat × Nat),
    key ∈ keysA (aggregate em cs) ↔
      key ∈ keysA em ∨ key ∈ cs.map Prod.fst := by
  intro cs
  induction cs with
  | nil => intro em key; simp [aggregate]
  | cons c cs ih =>
    intro em key
    have step : aggregate em (c :: cs) = aggregate (bumpEdge em c.1 c.2) cs := rfl
    rw [step, ih, mem_keysA_bumpEdge]
    simp
    tauto

/-- Aggregation keeps the keys nodup. -/
theorem nodup_keysA_aggregate :
    ∀ (cs em : List ((Nat × Nat) × ℚ)), (keysA em).Nodup →
    (keysA (aggregate em cs)).Nodup := by
  intro cs
  induction cs with
  | nil => intro em h; exact h
  | cons c cs ih =>
    intro em h
    exact ih (bumpEdge em c.1 c.2) (nodup_keysA_bumpEdge c.1 c.2 em h)

/-- The inner topic-count fold of `buildEdgeMap` aggregates exactly the
contributions `topicContribs` lists. -/
theorem inner_fold_eq_aggregate (ns : List Node) (sid : Nat) :
    ∀ (tcs : List (String × Nat)) (em : List ((Nat × Nat) × ℚ)),
    tcs.foldl (edgeStep ns sid) em = aggregate em (topicContribs ns sid tcs) := by
  intro tcs
  induction tcs with
  | nil => intro em; rfl
  | cons tc rest ih =>
    intro em
    rw [List.foldl_cons]
    rcases h : resolveNodeId ns (stripMd tc.1) with _ | tid
    · have hstep : edgeStep ns sid em tc = em := by simp [edgeStep, h]
      have hc : topicContribs ns sid (tc :: rest) = topicContribs ns sid rest := by
        simp [topicContribs, h]
      rw [hstep, hc, ih]
    · by_cases hst : sid = tid
      · have hstep : edgeStep ns sid em tc = em := by simp [edgeStep, h, hst]
        have hc : topicContribs ns sid (tc :: rest) = topicContribs ns sid rest := by
          simp [topicContribs, h, hst]
        rw [hstep, hc, ih]
      · have hstep : edgeStep ns sid em tc =
            bumpEdge em (canonKey sid tid) (tc.2 : ℚ) := by
          simp [edgeStep, h, hst]
        have hc : topicContribs ns sid (tc :: rest) =
            (canonKey sid tid, (tc.2 : ℚ)) :: topicContribs ns sid rest := by
          simp [topicContribs, h, hst]
        rw [hstep, hc, ih]
        rfl

/-- `buildEdgeMap` is the aggregation of all the store's contributions. -/
theorem buildEdgeMap_eq_aggregate (ns : List Node) :
    ∀ (store : MetadataStore) (em : List ((Nat × Nat) × ℚ)),
    store.foldl (entryStep ns) em = aggregate em (edgeContribs ns store) := by
  intro store
  induction store with
  | nil => intro em; rfl
  | cons entry rest ih =>
    intro em
    rw [List.foldl_cons]
    have hc : edgeContribs ns (entry :: rest) =
        entryContribs ns entry ++ edgeContribs ns rest := rfl
    rcases h : resolveNodeId ns (stripMd entry.1) with _ | sid
    · have hstep : entryStep ns em entry = em := by simp [entryStep, h]
      have he : entryContribs ns entry = [] := by simp [entryContribs, h]
      rw [hstep, ih, hc, he, List.nil_append]
    · have hstep : entryStep ns em entry =
          entry.2.topic_counts.foldl (edgeStep ns sid) em := by
        simp [entryStep, h]
      have he : entryContribs ns entry =
          topicContribs ns sid entry.2.topic_counts := by
        simp [entryContribs, h]
      rw [hstep, inner_fold_eq_aggregate, ih, hc, he, aggregate_append]

/-- The code-side map equals the aggregation of the spec-side
contributions. -/
theorem buildEdgeMap_spec (ns : List Node) (store : MetadataStore) :
    buildEdgeMap ns store = aggregate [] (edgeContribs ns store) := by
  exact buildEdgeMap_eq_aggregate ns store []

/-- Every contribution's key is a canonical non-self pair. -/
theorem topicContribs_canonical (ns : List Node) (sid : Nat) :
    ∀ (tcs : List (String × Nat)) (c : (Nat × Nat) × ℚ),
    c ∈ topicContribs ns sid tcs → c.1.1 < c.1.2 := by
  intro tcs
  induction tcs with
  | nil => intro c hc; simp [topicContribs] at hc
  | cons tc rest ih =>
    intro c hc
    rcases h : resolveNodeId ns (stripMd tc.1) with _ | tid
    · have hc2 : topicContribs ns sid (tc :: rest) = topicContribs ns sid rest := by
        simp [topicContribs, h]
      rw [hc2] at hc
      exact ih c hc
    · by_cases hst : sid = tid
      · have hc2 : topicContribs ns sid (tc :: rest) = topicContribs ns sid rest := by
          simp [topicContribs, h, hst]
        rw [hc2] at hc
        exact ih c hc
      · have hc2 : topicContribs ns sid (tc :: rest) =
            (canonKey sid tid, (tc.2 : ℚ)) :: topicContribs ns sid rest := by
          simp [topicContribs, h, hst]
        rw [hc2] at hc
        rcases List.mem_cons.mp hc with rfl | hmem
        · exact canonKey_lt hst
        · exact ih c hmem

/-- Every key of the full contribution list is a canonical non-self pair. -/
theorem edgeContribs_canonical (ns : List Node) :
    ∀ (store : MetadataStore) (c : (Nat × Nat) × ℚ),
    c ∈ edgeContribs ns store → c.1.1 < c.1.2 := by
  intro store
  induction store with
  | nil => intro c hc; simp [edgeContribs] at hc
  | cons entry rest ih =>
    intro c hc
    have hc2 : c ∈ entryContribs ns entry ++ edgeContribs ns rest := hc
    rcases List.mem_append.mp hc2 with hmem | hmem
    · rcases h : resolveNodeId ns (stripMd entry.1) with _ | sid
      · have he : entryContribs ns entry = [] := by simp [entryContribs, h]
        rw [he] at hmem
        simp at hmem
      · have he : entryContribs ns entry =
            topicContribs ns sid entry.2.topic_counts := by
          simp [entryContribs, h]
        rw [he] at hmem
        exact topicContribs_canonical ns sid entry.2.topic_counts c hmem
    · exact ih c hmem

/-- C4: the edge set built by `build_graph_from_metadata` holds exactly one
edge per unordered pair of distinct resolved node ids — keys are nodup and
canonical with `source < target` (hence never self-referencing) — and its
weight is the sum of the co-occurrence counts recorded in both directions
for that pair; pairs with an unresolvable endpoint contribute nothing. -/
theorem build_graph_edges_canonical (ns : List Node) (store : MetadataStore) :
    (∀ e, e ∈ edgesOfMap (buildEdgeMap ns store) → e.source < e.target) ∧
    (keysA (buildEdgeMap ns store)).Nodup ∧
    (∀ key, lookupA (buildEdgeMap ns store) key =
      if key ∈ (edgeContribs ns store).map Prod.fst
      then some (totalWeight (edgeContribs ns store) key) else none) ∧
    (∀ mk, (build_graph_from_metadata mk false store).2 =
      Except.ok (mk store, edgesOfMap (buildEdgeMap (mk store) store))) := by
  refine ⟨?_, ?_, ?_, fun mk => rfl⟩
  · intro e he
    rcases List.mem_map.mp he with ⟨c, hc, rfl⟩
    have hkey : c.1 ∈ keysA (buildEdgeMap ns store) :=
      List.mem_map.mpr ⟨c, hc, rfl⟩
    rw [buildEdgeMap_spec] at hkey
    rcases (mem_keysA_aggregate (edgeContribs ns store) [] c.1).mp hkey with h | h
    · simp [keysA] at h
    · rcases List.mem_map.mp h with ⟨c2, hc2, hfst⟩
      have := edgeContribs_canonical ns store c2 hc2
      rw [hfst] at this
      exact this
  · rw [buildEdgeMap_spec]
    exact nodup_keysA_aggregate (edgeContribs ns store) [] (by simp [keysA])
  · intro key
    rw [buildEdgeMap_spec]
    by_cases h : key ∈ (edgeContribs ns store).map Prod.fst
    · rw [if_pos h]
      have hmem : key ∈ keysA (aggregate [] (edgeContribs ns store)) :=
        (mem_keysA_aggregate (edgeContribs ns store) [] key).mpr (Or.inr h)
      have hne : lookupA (aggregate [] (edgeContribs ns store)) key ≠ none := by
        intro hnone
        exact (lookupA_eq_none_iff (aggregate [] (edgeContribs ns store)) key).mp
          hnone hmem
      rcases Option.ne_none_iff_exists.mp hne with ⟨w, hw⟩
      have hget := lookupA_aggregate_getD (edgeContribs ns store) [] key
      rw [← hw] at hget ⊢
      simp [lookupA] at hget
      simp [hget]
    · rw [if_neg h]
      have hnot : key ∉ keysA (aggregate [] (edgeContribs ns store)) := by
        intro hmem
        rcases (mem_keysA_aggregate (edgeContribs ns store) [] key).mp hmem with h2 | h2
        · simp [keysA] at h2
        · exact h h2
      exact (lookupA_eq_none_iff (aggregate [] (edgeContribs ns store)) key).mpr hnot

/-- Witness for C4: with nodes "a" (id 1) and "b" (id 2) and co-occurrence
counts (a,b)=3 and (b,a)=2, the build yields exactly one edge (1,2) with
weight 5, and that edge satisfies source < target. -/
theorem build_graph_edges_canonical_witness :
    lookupA (buildEdgeMap [mkSimpleNode 1 "a", mkSimpleNode 2 "b"]
      [("a.md", sampleMeta "a.md" [("b.md", 3)]),
       ("b.md", sampleMeta "b.md" [("a.md", 2)])]) (1, 2) = some 5 ∧
    (1 : Nat) < 2 := by
  constructor
  · have h := (build_graph_edges_canonical
      [mkSimpleNode 1 "a", mkSimpleNode 2 "b"]
      [("a.md", sampleMeta "a.md" [("b.md", 3)]),
       ("b.md", sampleMeta "b.md" [("a.md", 2)])]).2.2.1 (1, 2)
    have hc : edgeContribs [mkSimpleNode 1 "a", mkSimpleNode 2 "b"]
        [("a.md", sampleMeta "a.md" [("b.md", 3)]),
         ("b.md", sampleMeta "b.md" [("a.md", 2)])] =
        [((1, 2), ((3 : Nat) : ℚ)), ((1, 2), ((2 : Nat) : ℚ))] := rfl
    rw [h, hc]
    norm_num [totalWeight]
  · have hc : edgeContribs [mkSimpleNode 1 "a", mkSimpleNode 2 "b"]
        [("a.md", sampleMeta "a.md" [("b.md", 3)]),
         ("b.md", sampleMeta "b.md" [("a.md", 2)])] =
        [((1, 2), ((3 : Nat) : ℚ)), ((1, 2), ((2 : Nat) : ℚ))] := rfl
    refine (build_graph_edges_canonical
      [mkSimpleNode 1 "a", mkSimpleNode 2 "b"]
      [("a.md", sampleMeta "a.md" [("b.md", 3)]),
       ("b.md", sampleMeta "b.md" [("a.md", 2)])]).1
      ⟨1, 2, ((3 : Nat) : ℚ) + ((2 : Nat) : ℚ)⟩ ?_
    rw [show edgesOfMap (buildEdgeMap [mkSimpleNode 1 "a", mkSimpleNode 2 "b"]
      [("a.md", sampleMeta "a.md" [("b.md", 3)]),
       ("b.md", sampleMeta "b.md" [("a.md", 2)])]) =
      [⟨1, 2, ((3 : Nat) : ℚ) + ((2 : Nat) : ℚ)⟩] from rfl]
    exact List.mem_singleton.mpr rfl

/-! ### Theorems for claim C9 -/

/-- The jittered radius is positive whenever the jitter is nonnegative. -/
theorem fibRadius_pos (jit : ℕ → ℝ) (i : ℕ) (h0 : 0 ≤ jit i) :
    0 < fibRadius jit i := by
  unfold fibRadius
  nlinarith

/-- A Fibonacci-sphere point's distance from the origin is exactly its
jittered radius. -/
theorem fibPosition_norm (jit : ℕ → ℝ) (N i : ℕ) (h0 : 0 ≤ jit i) :
    normR (fibPosition jit N i) = fibRadius jit i := by
  have hr : 0 ≤ fibRadius jit i := le_of_lt (fibRadius_pos jit i h0)
  unfold normR fibPosition
  dsimp only
  have key : (fibRadius jit i * Real.sin (fibPhi N i) * Real.cos (fibTheta i)) ^ 2 +
      (fibRadius jit i * Real.sin (fibPhi N i) * Real.sin (fibTheta i)) ^ 2 +
      (fibRadius jit i * Real.cos (fibPhi N i)) ^ 2 = fibRadius jit i ^ 2 := by
    linear_combination (fibRadius jit i ^ 2 * Real.sin (fibPhi N i) ^ 2) *
        Real.sin_sq_add_cos_sq (fibTheta i) +
      fibRadius jit i ^ 2 * Real.sin_sq_add_cos_sq (fibPhi N i)
  rw [key, Real.sqrt_sq hr]

/-- For an in-range index the arccos argument is in `[-1, 1]`, so the polar
cosine is exactly that argument. -/
theorem fibPhi_cos (N i : ℕ) (hi : i < N) :
    Real.cos (fibPhi N i) = 1 - 2 * ((i : ℝ) + 0.5) / N := by
  have hN0 : 0 < N := Nat.lt_of_le_of_lt (Nat.zero_le i) hi
  have hN : (0 : ℝ) < N := by exact_mod_cast hN0
  apply Real.cos_arccos
  · have hle : (i : ℝ) + 1 ≤ N := by exact_mod_cast hi
    have h2 : 2 * ((i : ℝ) + 0.5) / N ≤ 2 := by
      rw [div_le_iff₀ hN]
      linarith
    linarith
  · have h0 : 0 ≤ 2 * ((i : ℝ) + 0.5) / N := by positivity
    linarith

/-- Two distinct in-range indices give distinct Fibonacci-sphere points:
equal points would force equal radii (their norms) and then equal polar
cosines, but the arccos arguments are strictly decreasing in the index. -/
theorem fibPosition_inj (jit : ℕ → ℝ) (N : ℕ)
    (hjit : ∀ i, 0 ≤ jit i ∧ jit i < 0.2) (i j : ℕ)
    (hi : i < N) (hj : j < N) (hij : i ≠ j) :
    fibPosition jit N i ≠ fibPosition jit N j := by
  intro heq
  have hrj : 0 < fibRadius jit j := fibRadius_pos jit j (hjit j).1
  have hnorm := congrArg normR heq
  rw [fibPosition_norm jit N i (hjit i).1,
    fibPosition_norm jit N j (hjit j).1] at hnorm
  have hz := congrArg Vec3R.z heq
  have hzi : (fibPosition jit N i).z =
      fibRadius jit i * Real.cos (fibPhi N i) := rfl
  have hzj : (fibPosition jit N j).z =
      fibRadius jit j * Real.cos (fibPhi N j) := rfl
  rw [hzi, hzj, hnorm] at hz
  have hcos : Real.cos (fibPhi N i) = Real.cos (fibPhi N j) :=
    mul_left_cancel₀ (ne_of_gt hrj) hz
  rw [fibPhi_cos N i hi, fibPhi_cos N j hj] at hcos
  have hN0 : 0 < N := Nat.lt_of_le_of_lt (Nat.zero_le i) hi
  have hN : (0 : ℝ) < N := by exact_mod_cast hN0
  have hNne : (N : ℝ) ≠ 0 := ne_of_gt hN
  have hIJ : (i : ℝ) = j := by
    field_simp at hcos
    exact_mod_cast hcos
  exact hij (by exact_mod_cast hIJ)

/-- C9: after `initialize_random_positions` on a graph of N nodes, node `i`
holds the Fibonacci-sphere position of index `i`; every node's velocity is
exactly zero; every position's distance from the origin lies in
`[0.9 * 3, 1.1 * 3]`; and no two distinct indices produce exactly equal
positions. -/
theorem init_random_positions_fibonacci (jit : ℕ → ℝ) (ns : List NodeR)
    (hjit : ∀ i, 0 ≤ jit i ∧ jit i < 0.2) :
    ((init_random_positions jit ns).map (fun nd => nd.position) =
      (List.range ns.length).map (fibPosition jit ns.length)) ∧
    (∀ nd ∈ init_random_positions jit ns, nd.velocity = ⟨0, 0, 0⟩) ∧
    (∀ i, i < ns.length →
      normR (fibPosition jit ns.length i) ∈
        Set.Icc ((0.9 : ℝ) * 3) ((1.1 : ℝ) * 3)) ∧
    (∀ i j, i < ns.length → j < ns.length → i ≠ j →
      fibPosition jit ns.length i ≠ fibPosition jit ns.length j) := by
  refine ⟨?_, ?_, ?_, ?_⟩
  · unfold init_random_positions
    rw [List.map_map]
    have hcomp : ((fun nd => nd.position) ∘ (fun inode : ℕ × NodeR =>
        { inode.2 with position := fibPosition jit ns.length inode.1,
                       velocity := ⟨0, 0, 0⟩ })) =
        (fibPosition jit ns.length) ∘ Prod.fst := rfl
    rw [hcomp, ← List.map_map, List.enum_map_fst]
  · intro nd hnd
    unfold init_random_positions at hnd
    rcases List.mem_map.mp hnd with ⟨inode, _, rfl⟩
    rfl
  · intro i hi
    rw [fibPosition_norm jit ns.length i (hjit i).1]
    refine Set.mem_Icc.mpr ⟨?_, ?_⟩ <;> simp only [fibRadius]
    · have := (hjit i).1
      linarith
    · have := (hjit i).2
      linarith
  · exact fun i j hi hj hij => fibPosition_inj jit ns.length hjit i j hi hj hij

/-- Witness for C9: with zero jitter and a two-node graph, the two
generated positions differ and both velocities are zero. -/
theorem init_random_positions_fibonacci_witness :
    fibPosition (fun _ => 0) 2 0 ≠ fibPosition (fun _ => 0) 2 1 ∧
    (∀ nd ∈ init_random_positions (fun _ => 0)
        [⟨⟨0, 0, 0⟩, ⟨1, 1, 1⟩⟩, ⟨⟨5, 0, 0⟩, ⟨2, 0, 0⟩⟩],
      nd.velocity = ⟨0, 0, 0⟩) := by
  have h := init_random_positions_fibonacci (fun _ => 0)
    [⟨⟨0, 0, 0⟩, ⟨1, 1, 1⟩⟩, ⟨⟨5, 0, 0⟩, ⟨2, 0, 0⟩⟩]
    (fun i => ⟨le_refl 0, by norm_num⟩)
  exact ⟨h.2.2.2 0 1 (by norm_num) (by norm_num) (by norm_num), h.2.1⟩

/-! ### Theorem for claim C10 -/

/-- C10 fails on the code: at page 1, page size 2 and a single node, the
slice bounds of `get_paginated_graph_data` violate `start ≤ end` — `start`
is 2, `end` is 1 — so the `usize` subtraction `end - start` underflows. -/
theorem get_paginated_bounds_underflow :
    pagEnd 1 2 1 < pagStart 1 2 := by decide

end GraphService
